import Mathlib

/-!
# PasswordEdit (src/gui/PasswordEdit.cpp): repeat-password feedback and pairing

A shallow embedding of the widget's state and of the member functions that
touch the repeat-password mechanic.

* Every `PasswordEdit` object lives in a store indexed by its address (a `Nat`);
  a member pointer is an `Option Nat` (`none` is the null pointer).
* A `QString` is the list of its characters; `!=`, `isEmpty` and `startsWith`
  (case sensitive, the toolkit's default) are list operations.
* `connect(...)` appends a connection to the list of connections; a
  `textChanged(QString)` emission calls the connected slots in connection order,
  synchronously (direct connections within the GUI thread).
* `QLineEdit::setText` stores the text and emits `textChanged` only when the
  stored text really changed.  Slots can call `setText` again, so the emission
  is recursive; the recursion depth is bounded by a fuel argument and the
  theorems below show that a fuel above the number of connections always
  suffices.
-/

/-- The text of a line edit: a sequence of characters. -/
abbrev QString := List Char

/-- The enumeration `QLineEdit::EchoMode`. -/
inductive EchoMode where
  | Normal
  | NoEcho
  | Password
  | PasswordEchoOnEdit
deriving DecidableEq

/-- An RGB colour as built by `QColor(r, g, b)`. -/
structure QColor where
  red : Nat
  green : Nat
  blue : Nat
deriving DecidableEq

/-- One lower-case hexadecimal digit. -/
def hexDigit (n : Nat) : Char :=
  if n < 10 then Char.ofNat (48 + n) else Char.ofNat (87 + n)

/-- Two hexadecimal digits of a colour channel. -/
def hexByte (n : Nat) : List Char :=
  [hexDigit (n / 16 % 16), hexDigit (n % 16)]

/-- The function `QColor::name()`: the colour written as `#rrggbb`. -/
def QColor.name (c : QColor) : String :=
  String.mk ('#' :: (hexByte c.red ++ hexByte c.green ++ hexByte c.blue))

/-- The constant `CorrectSoFarColor(255, 205, 15)`. -/
def CorrectSoFarColor : QColor := ⟨255, 205, 15⟩

/-- The constant `ErrorColor(255, 125, 125)`. -/
def ErrorColor : QColor := ⟨255, 125, 125⟩

/-- The expression `stylesheetTemplate.arg(a)` with
`stylesheetTemplate = "QLineEdit \x7b background: %1; \x7d"`. -/
def stylesheetTemplate (a : String) : String :=
  "QLineEdit \x7b background: " ++ a ++ "; \x7d"

/-- The state of one `PasswordEdit` widget: the part of the `QLineEdit` base
object the member functions read or write, the visibility of the four trailing
actions, and the two partner pointers. -/
structure PasswordEdit where
  text : QString
  echoMode : EchoMode
  enabled : Bool
  styleSheet : String
  errorActionVisible : Bool
  correctActionVisible : Bool
  toggleVisibleActionVisible : Bool
  toggleVisibleActionChecked : Bool
  toggleVisibleActionIcon : String
  passwordGeneratorActionVisible : Bool
  m_repeatPasswordEdit : Option Nat
  m_parentPasswordEdit : Option Nat
deriving DecidableEq

/-- The slots that `setRepeatPartner` connects to `textChanged(QString)`. -/
inductive Slot where
  | autocompletePassword
  | updateRepeatStatus
deriving DecidableEq

/-- One `connect(sender, SIGNAL(textChanged(QString)), receiver, slot)`. -/
structure Connection where
  sender : Nat
  receiver : Nat
  slot : Slot
deriving DecidableEq

/-- The program state: the widgets by address, the signal connections in the
order they were made, and the configuration value
`config()->get("security/passwordsrepeat").toBool()`. -/
structure World where
  fields : Nat → PasswordEdit
  connections : List Connection
  passwordsrepeat : Bool

namespace PasswordEdit

/-- Modelled from the spec: the initial value of the member pointers
`m_repeatPasswordEdit` and `m_parentPasswordEdit`.  They are declared in
PasswordEdit.h, which is not among the sources; a freshly constructed field has
no partner, so both start as the null pointer. -/
def initialPartner : Option Nat := none

/-- The constructor `PasswordEdit::PasswordEdit`: error and match-so-far
actions hidden, echo mode `Password`, the visibility toggle shown with the
"off" icon and unchecked, the generator action hidden. -/
def new : PasswordEdit where
  text := []
  echoMode := EchoMode.Password
  enabled := true
  styleSheet := ""
  errorActionVisible := false
  correctActionVisible := false
  toggleVisibleActionVisible := true
  toggleVisibleActionChecked := false
  toggleVisibleActionIcon := "password-show-off"
  passwordGeneratorActionVisible := false
  m_repeatPasswordEdit := initialPartner
  m_parentPasswordEdit := initialPartner

end PasswordEdit

/-- Apply a change to the widget at address `self`. -/
def World.modify (w : World) (self : Nat) (f : PasswordEdit → PasswordEdit) : World :=
  { w with fields := fun i => if i = self then f (w.fields i) else w.fields i }

/-- Store `s` as the text of the widget at address `self`, without emitting
any signal. -/
def World.storeText (w : World) (self : Nat) (s : QString) : World :=
  w.modify self fun e => { e with text := s }

/-- A store in which every widget is freshly constructed and nothing is
connected. -/
def World.fresh (passwordsrepeat : Bool) : World where
  fields := fun _ => PasswordEdit.new
  connections := []
  passwordsrepeat := passwordsrepeat

namespace PasswordEdit

/-- The member function `PasswordEdit::setParentPasswordEdit`. -/
def setParentPasswordEdit (w : World) (self parent : Nat) : World :=
  w.modify self fun e =>
    { e with
      m_parentPasswordEdit := some parent
      toggleVisibleActionVisible := false
      passwordGeneratorActionVisible := false }

/-- The member function `PasswordEdit::setRepeatPartner`. -/
def setRepeatPartner (w : World) (self repeatEdit : Nat) : World :=
  let w1 := w.modify self fun e => { e with m_repeatPasswordEdit := some repeatEdit }
  let w2 := setParentPasswordEdit w1 repeatEdit self
  { w2 with
    connections := w2.connections ++
      [⟨self, repeatEdit, Slot.autocompletePassword⟩,
       ⟨self, repeatEdit, Slot.updateRepeatStatus⟩,
       ⟨repeatEdit, repeatEdit, Slot.updateRepeatStatus⟩] }

/-- The member function `PasswordEdit::isPasswordVisible`. -/
def isPasswordVisible (w : World) (self : Nat) : Bool :=
  (w.fields self).echoMode == EchoMode.Normal

/-- The member function `PasswordEdit::updateRepeatStatus`. -/
def updateRepeatStatus (w : World) (self : Nat) : World :=
  match (w.fields self).m_parentPasswordEdit with
  | none => w
  | some parent =>
    let otherPassword := (w.fields parent).text
    let password := (w.fields self).text
    if otherPassword ≠ password then
      if !password.isEmpty && password.isPrefixOf otherPassword then
        w.modify self fun e =>
          { e with
            styleSheet := stylesheetTemplate CorrectSoFarColor.name
            correctActionVisible := true
            errorActionVisible := false }
      else
        w.modify self fun e =>
          { e with
            styleSheet := stylesheetTemplate ErrorColor.name
            correctActionVisible := false
            errorActionVisible := true }
    else
      w.modify self fun e =>
        { e with
          correctActionVisible := false
          errorActionVisible := false
          styleSheet := "" }

/-- The member function `PasswordEdit::autocompletePassword`, with the
inherited `setText` it calls passed in as `setText`. -/
def autocompletePasswordWith (setText : World → Nat → QString → Option World)
    (w : World) (self : Nat) (password : QString) : Option World :=
  if w.passwordsrepeat && (w.fields self).echoMode == EchoMode.Normal then
    setText w self password
  else some w

/-- Run the slot of one connection for the emission `textChanged(s)`. -/
def invokeSlot (setText : World → Nat → QString → Option World) (s : QString)
    (w : World) (c : Connection) : Option World :=
  match c.slot with
  | Slot.autocompletePassword => autocompletePasswordWith setText w c.receiver s
  | Slot.updateRepeatStatus => some (updateRepeatStatus w c.receiver)

/-- The inherited function `QLineEdit::setText`: nothing happens when the text
is already `s`; otherwise the text is stored and `textChanged(s)` is emitted,
which runs the slots connected to the sender in connection order.  A slot may
call `setText` again; `fuel` bounds the depth of such nested calls, and `none`
is returned when it is used up.  Texts are taken to fit the maximum length of
the line edit, so nothing is truncated. -/
def setText (fuel : Nat) (w : World) (self : Nat) (s : QString) : Option World :=
  match fuel with
  | 0 => if (w.fields self).text = s then some w else none
  | fuel + 1 =>
    if (w.fields self).text = s then some w
    else
      let w1 := w.storeText self s
      (w1.connections.filter fun c => c.sender = self).foldlM
        (invokeSlot (setText fuel) s) w1

/-- The member function `PasswordEdit::autocompletePassword`. -/
def autocompletePassword (fuel : Nat) (w : World) (self : Nat) (password : QString) :
    Option World :=
  autocompletePasswordWith (setText fuel) w self password

/-- The inherited function `QLineEdit::setEchoMode`. -/
def setEchoMode (w : World) (self : Nat) (mode : EchoMode) : World :=
  w.modify self fun e => { e with echoMode := mode }

/-- The inherited function `QWidget::setEnabled`. -/
def setEnabled (w : World) (self : Nat) (enabled : Bool) : World :=
  w.modify self fun e => { e with enabled := enabled }

/-- The call `m_toggleVisibleAction->setIcon(filePath()->icon("actions", name))`,
the icon kept by its name. -/
def toggleVisibleActionSetIcon (w : World) (self : Nat) (name : String) : World :=
  w.modify self fun e => { e with toggleVisibleActionIcon := name }

/-- The call `m_toggleVisibleAction->setChecked(checked)`. -/
def toggleVisibleActionSetChecked (w : World) (self : Nat) (checked : Bool) : World :=
  w.modify self fun e => { e with toggleVisibleActionChecked := checked }

/-- The member function `PasswordEdit::setShowPassword`. -/
def setShowPassword (fuel : Nat) (w : World) (self : Nat) (shown : Bool) : Option World :=
  let w1 := setEchoMode w self (if shown then EchoMode.Normal else EchoMode.Password)
  let w2 := toggleVisibleActionSetIcon w1 self
    (if shown then "password-show-on" else "password-show-off")
  let w3 := toggleVisibleActionSetChecked w2 self shown
  match (w3.fields self).m_repeatPasswordEdit with
  | none => some w3
  | some r =>
    let w4 := setEchoMode w3 r (if shown then EchoMode.Normal else EchoMode.Password)
    if w4.passwordsrepeat then
      let w5 := setEnabled w4 r (!shown)
      setText fuel w5 r (w5.fields self).text
    else
      some (setEnabled w4 r true)

end PasswordEdit

/-- Run a sequence of `setRepeatPartner` calls in order; each call is the pair
(receiver, argument), that is `receiver.setRepeatPartner(argument)`. -/
def linkAll (w : World) (calls : List (Nat × Nat)) : World :=
  calls.foldl (fun acc c => PasswordEdit.setRepeatPartner acc c.1 c.2) w

/-- A primary field at address 0 holding `a`, linked by `setRepeatPartner` to a
repeat field at address 1 holding `b`; both texts as typed by the user. -/
def pairWorld (passwordsrepeat : Bool) (a b : QString) : World :=
  ((PasswordEdit.setRepeatPartner (World.fresh passwordsrepeat) 0 1).storeText 0 a).storeText 1 b

/-- The guard of `autocompletePassword` on the widget at address `i`: auto-sync
is configured and the widget shows its text in the clear. -/
def autoSyncs (w : World) (i : Nat) : Prop :=
  w.passwordsrepeat = true ∧ (w.fields i).echoMode = EchoMode.Normal

instance (w : World) (i : Nat) : Decidable (autoSyncs w i) := by
  unfold autoSyncs
  infer_instance

/-- The relation between the state before and after an emission of
`textChanged(s)`: connections, configuration, echo modes, enabled flags and
partner pointers are the same, and every text is either the same or has become
`s` on a widget that passes the guard of `autocompletePassword`. -/
structure Mirrors (s : QString) (w w' : World) : Prop where
  connections : w'.connections = w.connections
  passwordsrepeat : w'.passwordsrepeat = w.passwordsrepeat
  echoMode : ∀ i, (w'.fields i).echoMode = (w.fields i).echoMode
  enabled : ∀ i, (w'.fields i).enabled = (w.fields i).enabled
  repeatPartner : ∀ i, (w'.fields i).m_repeatPasswordEdit = (w.fields i).m_repeatPasswordEdit
  parentPartner : ∀ i, (w'.fields i).m_parentPasswordEdit = (w.fields i).m_parentPasswordEdit
  text : ∀ i, (w'.fields i).text = (w.fields i).text ∨ ((w'.fields i).text = s ∧ autoSyncs w i)

/-- The addresses that receive some connection. -/
def receivers (w : World) : Finset Nat :=
  (w.connections.map Connection.receiver).toFinset

/-- The receivers whose text is not yet `s`: the measure that bounds the depth
of nested `setText` calls during an emission of `textChanged(s)`. -/
def pending (s : QString) (w : World) : Finset Nat :=
  (receivers w).filter fun i => (w.fields i).text ≠ s

/-! ## The repeat status (`updateRepeatStatus`) -/

namespace PasswordEdit

theorem fields_modify_self (w : World) (i : Nat) (f : PasswordEdit → PasswordEdit) :
    (w.modify i f).fields i = f (w.fields i) := by
  simp [World.modify]

theorem fields_modify_other (w : World) (i j : Nat) (f : PasswordEdit → PasswordEdit)
    (h : j ≠ i) : (w.modify i f).fields j = w.fields j := by
  simp [World.modify, h]

/-- The three outcomes of `updateRepeatStatus` on a field with a primary
partner, by the relation between the two texts. -/
theorem updateRepeatStatus_cases (w : World) (self parent : Nat)
    (hp : (w.fields self).m_parentPasswordEdit = some parent) :
    updateRepeatStatus w self =
      if (w.fields parent).text = (w.fields self).text then
        w.modify self fun e =>
          { e with correctActionVisible := false, errorActionVisible := false, styleSheet := "" }
      else if (w.fields self).text ≠ [] ∧ (w.fields self).text <+: (w.fields parent).text then
        w.modify self fun e =>
          { e with
            styleSheet := stylesheetTemplate CorrectSoFarColor.name
            correctActionVisible := true
            errorActionVisible := false }
      else
        w.modify self fun e =>
          { e with
            styleSheet := stylesheetTemplate ErrorColor.name
            correctActionVisible := false
            errorActionVisible := true } := by
  unfold updateRepeatStatus
  rw [hp]
  by_cases h1 : (w.fields parent).text = (w.fields self).text
  · simp [h1]
  · by_cases h2 : (w.fields self).text = []
    · simp [h1, h2]
    · by_cases h3 : (w.fields self).text <+: (w.fields parent).text
      · simp [h1, h2, h3, List.isEmpty_iff]
      · simp [h1, h2, h3, List.isEmpty_iff]

/-- C1 (as amended): with an empty repeat text the outcome depends on the
primary text `a`: when `a` is empty too, both indicators are hidden and the
stylesheet is reset; when `a` is not empty, the mismatch indication is shown
(error action visible, match-so-far action hidden, error background). -/
theorem updateRepeatStatus_empty_repeat (w : World) (self parent : Nat) (a : QString)
    (hp : (w.fields self).m_parentPasswordEdit = some parent)
    (ha : (w.fields parent).text = a) (hr : (w.fields self).text = []) :
    (a = [] →
      ((updateRepeatStatus w self).fields self).errorActionVisible = false ∧
      ((updateRepeatStatus w self).fields self).correctActionVisible = false ∧
      ((updateRepeatStatus w self).fields self).styleSheet = "") ∧
    (a ≠ [] →
      ((updateRepeatStatus w self).fields self).errorActionVisible = true ∧
      ((updateRepeatStatus w self).fields self).correctActionVisible = false ∧
      ((updateRepeatStatus w self).fields self).styleSheet =
        stylesheetTemplate ErrorColor.name) := by
  rw [updateRepeatStatus_cases w self parent hp, ha, hr]
  constructor
  · intro h
    simp [h, fields_modify_self]
  · intro h
    simp [h, fields_modify_self]

/-- C1 (as stated) fails: primary "Sunshine1", repeat "" gives the mismatch
indication, the error action is visible and the background is the error
colour. -/
theorem updateRepeatStatus_empty_repeat_mismatch :
    ((pairWorld false "Sunshine1".toList []).fields 1).m_parentPasswordEdit = some 0 ∧
    ((pairWorld false "Sunshine1".toList []).fields 0).text = "Sunshine1".toList ∧
    ((pairWorld false "Sunshine1".toList []).fields 1).text = [] ∧
    ((updateRepeatStatus (pairWorld false "Sunshine1".toList []) 1).fields 1).errorActionVisible
      = true ∧
    ((updateRepeatStatus (pairWorld false "Sunshine1".toList []) 1).fields 1).styleSheet
      = stylesheetTemplate ErrorColor.name := by
  decide

/-- Witness for C1 (as amended): primary "Sunshine1", repeat "". -/
theorem updateRepeatStatus_empty_repeat_witness :
    ((updateRepeatStatus (pairWorld false "Sunshine1".toList []) 1).fields 1).errorActionVisible
      = true ∧
    ((updateRepeatStatus (pairWorld false "Sunshine1".toList []) 1).fields 1).correctActionVisible
      = false ∧
    ((updateRepeatStatus (pairWorld false "Sunshine1".toList []) 1).fields 1).styleSheet
      = stylesheetTemplate ErrorColor.name :=
  (updateRepeatStatus_empty_repeat (pairWorld false "Sunshine1".toList []) 1 0
    "Sunshine1".toList (by decide) (by decide) (by decide)).2 (by decide)

/-- C2: a non-empty repeat text that is a proper prefix of the primary text
gives the match-so-far indication: match-so-far action visible, error action
hidden, correct-so-far background. -/
theorem updateRepeatStatus_prefix_match (w : World) (self parent : Nat) (a p : QString)
    (hp : (w.fields self).m_parentPasswordEdit = some parent)
    (ha : (w.fields parent).text = a) (hr : (w.fields self).text = p)
    (hne : p ≠ []) (hpre : p <+: a) (hneq : p ≠ a) :
    ((updateRepeatStatus w self).fields self).correctActionVisible = true ∧
    ((updateRepeatStatus w self).fields self).errorActionVisible = false ∧
    ((updateRepeatStatus w self).fields self).styleSheet =
      stylesheetTemplate CorrectSoFarColor.name := by
  rw [updateRepeatStatus_cases w self parent hp, ha, hr]
  simp [Ne.symm hneq, hne, hpre, fields_modify_self]

/-- Witness for C2: primary "Sunshine1", repeat "Sun". -/
theorem updateRepeatStatus_prefix_match_witness :
    ((updateRepeatStatus (pairWorld false "Sunshine1".toList "Sun".toList) 1).fields 1).correctActionVisible
      = true ∧
    ((updateRepeatStatus (pairWorld false "Sunshine1".toList "Sun".toList) 1).fields 1).errorActionVisible
      = false ∧
    ((updateRepeatStatus (pairWorld false "Sunshine1".toList "Sun".toList) 1).fields 1).styleSheet
      = stylesheetTemplate CorrectSoFarColor.name :=
  updateRepeatStatus_prefix_match (pairWorld false "Sunshine1".toList "Sun".toList) 1 0
    "Sunshine1".toList "Sun".toList (by decide) (by decide) (by decide) (by decide)
    ⟨"shine1".toList, by decide⟩ (by decide)

/-- C3: a non-empty repeat text that is neither a prefix of the primary text
nor equal to it gives the mismatch indication: error action visible,
match-so-far action hidden, error background. -/
theorem updateRepeatStatus_mismatch (w : World) (self parent : Nat) (a b : QString)
    (hp : (w.fields self).m_parentPasswordEdit = some parent)
    (ha : (w.fields parent).text = a) (hr : (w.fields self).text = b)
    (hne : b ≠ []) (hpre : ¬ b <+: a) (hneq : b ≠ a) :
    ((updateRepeatStatus w self).fields self).errorActionVisible = true ∧
    ((updateRepeatStatus w self).fields self).correctActionVisible = false ∧
    ((updateRepeatStatus w self).fields self).styleSheet =
      stylesheetTemplate ErrorColor.name := by
  rw [updateRepeatStatus_cases w self parent hp, ha, hr]
  simp [Ne.symm hneq, hne, hpre, fields_modify_self]

/-- Witness for C3: primary "Sunshine1", repeat "Moon". -/
theorem updateRepeatStatus_mismatch_witness :
    ((updateRepeatStatus (pairWorld false "Sunshine1".toList "Moon".toList) 1).fields 1).errorActionVisible
      = true ∧
    ((updateRepeatStatus (pairWorld false "Sunshine1".toList "Moon".toList) 1).fields 1).correctActionVisible
      = false ∧
    ((updateRepeatStatus (pairWorld false "Sunshine1".toList "Moon".toList) 1).fields 1).styleSheet
      = stylesheetTemplate ErrorColor.name :=
  updateRepeatStatus_mismatch (pairWorld false "Sunshine1".toList "Moon".toList) 1 0
    "Sunshine1".toList "Moon".toList (by decide) (by decide) (by decide) (by decide)
    (by decide) (by decide)

/-- C4: a non-empty repeat text equal to the primary text gives the exact
match: error action and match-so-far action both hidden and the stylesheet
reset to the empty string, whatever the indicators showed before. -/
theorem updateRepeatStatus_exact_match (w : World) (self parent : Nat) (a : QString)
    (hp : (w.fields self).m_parentPasswordEdit = some parent)
    (ha : (w.fields parent).text = a) (hr : (w.fields self).text = a) (_hne : a ≠ []) :
    ((updateRepeatStatus w self).fields self).errorActionVisible = false ∧
    ((updateRepeatStatus w self).fields self).correctActionVisible = false ∧
    ((updateRepeatStatus w self).fields self).styleSheet = "" := by
  rw [updateRepeatStatus_cases w self parent hp, ha, hr]
  simp [fields_modify_self]

/-- Witness for C4: primary "Sunshine1", repeat "Sunshine1", starting from a
repeat field that shows the mismatch indication. -/
theorem updateRepeatStatus_exact_match_witness :
    (((updateRepeatStatus (pairWorld false "Sunshine1".toList "Moon".toList) 1).storeText 1
        "Sunshine1".toList).fields 1).errorActionVisible = true ∧
    ((updateRepeatStatus ((updateRepeatStatus (pairWorld false "Sunshine1".toList "Moon".toList) 1).storeText 1
        "Sunshine1".toList) 1).fields 1).errorActionVisible = false ∧
    ((updateRepeatStatus ((updateRepeatStatus (pairWorld false "Sunshine1".toList "Moon".toList) 1).storeText 1
        "Sunshine1".toList) 1).fields 1).correctActionVisible = false ∧
    ((updateRepeatStatus ((updateRepeatStatus (pairWorld false "Sunshine1".toList "Moon".toList) 1).storeText 1
        "Sunshine1".toList) 1).fields 1).styleSheet = "" :=
  ⟨by decide,
   updateRepeatStatus_exact_match
    ((updateRepeatStatus (pairWorld false "Sunshine1".toList "Moon".toList) 1).storeText 1
        "Sunshine1".toList) 1 0
    "Sunshine1".toList (by decide) (by decide) (by decide) (by decide)⟩

/-- C10: the error action and the match-so-far action both start hidden at
construction; on a field with a primary partner `updateRepeatStatus` never
leaves both visible; on a field without a primary partner it changes
nothing. -/
theorem updateRepeatStatus_indicators_exclusive :
    (PasswordEdit.new.errorActionVisible = false ∧
      PasswordEdit.new.correctActionVisible = false) ∧
    (∀ (w : World) (self parent : Nat),
      (w.fields self).m_parentPasswordEdit = some parent →
      ¬ (((updateRepeatStatus w self).fields self).errorActionVisible = true ∧
         ((updateRepeatStatus w self).fields self).correctActionVisible = true)) ∧
    (∀ (w : World) (self : Nat),
      (w.fields self).m_parentPasswordEdit = none → updateRepeatStatus w self = w) := by
  refine ⟨⟨rfl, rfl⟩, ?_, ?_⟩
  · intro w self parent hp
    rw [updateRepeatStatus_cases w self parent hp]
    split_ifs <;> simp [fields_modify_self]
  · intro w self hp
    unfold updateRepeatStatus
    rw [hp]

/-- Witness for C10: the linked repeat field of "Sunshine1"/"Sun" after
`updateRepeatStatus`, and a fresh field without a primary partner. -/
theorem updateRepeatStatus_indicators_exclusive_witness :
    ¬ (((updateRepeatStatus (pairWorld false "Sunshine1".toList "Sun".toList) 1).fields 1).errorActionVisible
        = true ∧
       ((updateRepeatStatus (pairWorld false "Sunshine1".toList "Sun".toList) 1).fields 1).correctActionVisible
        = true) ∧
    updateRepeatStatus (World.fresh false) 0 = World.fresh false :=
  ⟨updateRepeatStatus_indicators_exclusive.2.1
      (pairWorld false "Sunshine1".toList "Sun".toList) 1 0 (by decide),
   updateRepeatStatus_indicators_exclusive.2.2 (World.fresh false) 0 (by decide)⟩

end PasswordEdit

/-! ## Pairing (`setRepeatPartner`) -/

namespace PasswordEdit

theorem fields_modify (w : World) (i j : Nat) (f : PasswordEdit → PasswordEdit) :
    (w.modify i f).fields j = if j = i then f (w.fields j) else w.fields j := rfl

theorem repeat_setRepeatPartner (w : World) (self repeatEdit i : Nat) :
    ((setRepeatPartner w self repeatEdit).fields i).m_repeatPasswordEdit =
      if i = self then some repeatEdit else (w.fields i).m_repeatPasswordEdit := by
  simp only [setRepeatPartner, setParentPasswordEdit, fields_modify]
  split_ifs <;> rfl

theorem parent_setRepeatPartner (w : World) (self repeatEdit i : Nat) :
    ((setRepeatPartner w self repeatEdit).fields i).m_parentPasswordEdit =
      if i = repeatEdit then some self else (w.fields i).m_parentPasswordEdit := by
  simp only [setRepeatPartner, setParentPasswordEdit, fields_modify]
  split_ifs <;> rfl

theorem repeat_linkAll (calls : List (Nat × Nat)) (w : World) (i : Nat) :
    ((linkAll w calls).fields i).m_repeatPasswordEdit ≠ none ↔
      (w.fields i).m_repeatPasswordEdit ≠ none ∨ ∃ c ∈ calls, c.1 = i := by
  induction calls generalizing w with
  | nil => simp [linkAll]
  | cons c cs ih =>
    have h := ih (setRepeatPartner w c.1 c.2)
    simp only [linkAll, List.foldl_cons] at h ⊢
    rw [h, repeat_setRepeatPartner]
    by_cases hc : i = c.1
    · simp [hc]
    · have hc' : ¬ c.1 = i := fun e => hc e.symm
      simp [hc, hc']

theorem parent_linkAll (calls : List (Nat × Nat)) (w : World) (i : Nat) :
    ((linkAll w calls).fields i).m_parentPasswordEdit ≠ none ↔
      (w.fields i).m_parentPasswordEdit ≠ none ∨ ∃ c ∈ calls, c.2 = i := by
  induction calls generalizing w with
  | nil => simp [linkAll]
  | cons c cs ih =>
    have h := ih (setRepeatPartner w c.1 c.2)
    simp only [linkAll, List.foldl_cons] at h ⊢
    rw [h, parent_setRepeatPartner]
    by_cases hc : i = c.2
    · simp [hc]
    · have hc' : ¬ c.2 = i := fun e => hc e.symm
      simp [hc, hc']

/-- C5 (as amended): `setRepeatPartner` has no failure path.  For a repeat
field `r` already linked to `p1` and a primary `p2` different from `p1`, the
call `p2.setRepeatPartner(r)` re-links: afterwards the primary partner of `r`
is `p2`, the repeat partner of `p2` is `r`, and the repeat partner of `p1` is
what it was before the call. -/
theorem setRepeatPartner_relinks (w : World) (p1 p2 r : Nat)
    (_h1 : (w.fields r).m_parentPasswordEdit = some p1) (h2 : p2 ≠ p1) :
    ((setRepeatPartner w p2 r).fields r).m_parentPasswordEdit = some p2 ∧
    ((setRepeatPartner w p2 r).fields p2).m_repeatPasswordEdit = some r ∧
    ((setRepeatPartner w p2 r).fields p1).m_repeatPasswordEdit =
      (w.fields p1).m_repeatPasswordEdit := by
  refine ⟨?_, ?_, ?_⟩
  · simp [parent_setRepeatPartner]
  · simp [repeat_setRepeatPartner]
  · simp [repeat_setRepeatPartner, Ne.symm h2]

/-- C5 (as stated) fails: with the repeat field 2 linked to the primary 0, the
call of `setRepeatPartner` on the primary 1 with the repeat field 2 does not
leave the primary partner of 2 equal to 0; it becomes 1. -/
theorem setRepeatPartner_second_link_succeeds :
    ((setRepeatPartner (World.fresh false) 0 2).fields 2).m_parentPasswordEdit = some 0 ∧
    ((setRepeatPartner (setRepeatPartner (World.fresh false) 0 2) 1 2).fields 2).m_parentPasswordEdit
      = some 1 ∧
    ((setRepeatPartner (setRepeatPartner (World.fresh false) 0 2) 1 2).fields 2).m_parentPasswordEdit
      ≠ some 0 := by
  decide

/-- Witness for C5 (as amended): repeat field 2 linked to primary 0, then
linked again from primary 1. -/
theorem setRepeatPartner_relinks_witness :
    ((setRepeatPartner (setRepeatPartner (World.fresh false) 0 2) 1 2).fields 2).m_parentPasswordEdit
      = some 1 ∧
    ((setRepeatPartner (setRepeatPartner (World.fresh false) 0 2) 1 2).fields 1).m_repeatPasswordEdit
      = some 2 ∧
    ((setRepeatPartner (setRepeatPartner (World.fresh false) 0 2) 1 2).fields 0).m_repeatPasswordEdit
      = ((setRepeatPartner (World.fresh false) 0 2).fields 0).m_repeatPasswordEdit :=
  setRepeatPartner_relinks (setRepeatPartner (World.fresh false) 0 2) 0 1 2
    (by decide) (by decide)

/-- C8 (as amended): after any sequence of `setRepeatPartner` calls on freshly
constructed fields, a field has both a repeat partner and a primary partner
exactly when it was the receiver of some call and the argument of some call
(possibly the same one).  So no field is both as long as no field is used in
both roles. -/
theorem linkAll_both_roles_iff (passwordsrepeat : Bool) (calls : List (Nat × Nat)) (i : Nat) :
    (((linkAll (World.fresh passwordsrepeat) calls).fields i).m_repeatPasswordEdit ≠ none ∧
      ((linkAll (World.fresh passwordsrepeat) calls).fields i).m_parentPasswordEdit ≠ none) ↔
    ((∃ c ∈ calls, c.1 = i) ∧ (∃ c ∈ calls, c.2 = i)) := by
  rw [repeat_linkAll, parent_linkAll]
  simp [World.fresh, PasswordEdit.new, initialPartner]

/-- C8 (as stated) fails: after the self-link of field 0, field 0 has both
partners; after the chained links of 0 to 1 and 1 to 2, field 1 has both
partners. -/
theorem linkAll_field_in_both_roles :
    ((linkAll (World.fresh false) [(0, 0)]).fields 0).m_repeatPasswordEdit = some 0 ∧
    ((linkAll (World.fresh false) [(0, 0)]).fields 0).m_parentPasswordEdit = some 0 ∧
    ((linkAll (World.fresh false) [(0, 1), (1, 2)]).fields 1).m_repeatPasswordEdit = some 2 ∧
    ((linkAll (World.fresh false) [(0, 1), (1, 2)]).fields 1).m_parentPasswordEdit = some 0 := by
  decide

/-- Witness for C8 (as amended): two primaries 0 and 2 linked in turn to the
repeat field 1; the repeat field 1 was never a receiver and does not have both
partners. -/
theorem linkAll_both_roles_iff_witness :
    ¬ (((linkAll (World.fresh false) [(0, 1), (2, 1)]).fields 1).m_repeatPasswordEdit ≠ none ∧
      ((linkAll (World.fresh false) [(0, 1), (2, 1)]).fields 1).m_parentPasswordEdit ≠ none) :=
  fun h => absurd ((linkAll_both_roles_iff false [(0, 1), (2, 1)] 1).mp h).1 (by decide)

end PasswordEdit

/-! ## Emission of `textChanged` (`setText` and the connected slots) -/

namespace PasswordEdit

theorem mirrors_refl (s : QString) (w : World) : Mirrors s w w :=
  ⟨rfl, rfl, fun _ => rfl, fun _ => rfl, fun _ => rfl, fun _ => rfl, fun _ => Or.inl rfl⟩

theorem autoSyncs_of_mirrors {s : QString} {w w' : World} (h : Mirrors s w w') (i : Nat) :
    autoSyncs w' i ↔ autoSyncs w i := by
  unfold autoSyncs
  rw [h.passwordsrepeat, h.echoMode]

theorem mirrors_trans {s : QString} {w1 w2 w3 : World} (h12 : Mirrors s w1 w2)
    (h23 : Mirrors s w2 w3) : Mirrors s w1 w3 where
  connections := h23.connections.trans h12.connections
  passwordsrepeat := h23.passwordsrepeat.trans h12.passwordsrepeat
  echoMode i := (h23.echoMode i).trans (h12.echoMode i)
  enabled i := (h23.enabled i).trans (h12.enabled i)
  repeatPartner i := (h23.repeatPartner i).trans (h12.repeatPartner i)
  parentPartner i := (h23.parentPartner i).trans (h12.parentPartner i)
  text i := by
    rcases h23.text i with h | ⟨h, ha⟩
    · rw [h]
      exact h12.text i
    · exact Or.inr ⟨h, (autoSyncs_of_mirrors h12 i).mp ha⟩

/-- A text that is `s` stays `s` through an emission of `textChanged(s)`. -/
theorem mirrors_text_stays {s : QString} {w w' : World} (h : Mirrors s w w') (i : Nat)
    (hi : (w.fields i).text = s) : (w'.fields i).text = s := by
  rcases h.text i with h1 | ⟨h1, _⟩
  · rw [h1, hi]
  · exact h1

/-- A widget that does not pass the guard keeps its text. -/
theorem mirrors_text_kept {s : QString} {w w' : World} (h : Mirrors s w w') (i : Nat)
    (hi : ¬ autoSyncs w i) : (w'.fields i).text = (w.fields i).text := by
  rcases h.text i with h1 | ⟨_, h1⟩
  · exact h1
  · exact absurd h1 hi

theorem mirrors_modify (s : QString) (w : World) (i : Nat) (f : PasswordEdit → PasswordEdit)
    (h1 : ∀ e, (f e).text = e.text) (h2 : ∀ e, (f e).echoMode = e.echoMode)
    (h3 : ∀ e, (f e).enabled = e.enabled)
    (h4 : ∀ e, (f e).m_repeatPasswordEdit = e.m_repeatPasswordEdit)
    (h5 : ∀ e, (f e).m_parentPasswordEdit = e.m_parentPasswordEdit) :
    Mirrors s w (w.modify i f) where
  connections := rfl
  passwordsrepeat := rfl
  echoMode j := by rw [fields_modify]; split_ifs <;> simp [h2]
  enabled j := by rw [fields_modify]; split_ifs <;> simp [h3]
  repeatPartner j := by rw [fields_modify]; split_ifs <;> simp [h4]
  parentPartner j := by rw [fields_modify]; split_ifs <;> simp [h5]
  text j := by rw [fields_modify]; split_ifs <;> simp [h1]

theorem mirrors_updateRepeatStatus (s : QString) (w : World) (i : Nat) :
    Mirrors s w (updateRepeatStatus w i) := by
  cases hp : (w.fields i).m_parentPasswordEdit with
  | none =>
    have : updateRepeatStatus w i = w := by
      unfold updateRepeatStatus
      rw [hp]
    rw [this]
    exact mirrors_refl s w
  | some parent =>
    rw [updateRepeatStatus_cases w i parent hp]
    split_ifs <;> exact mirrors_modify s w i _ (fun _ => rfl) (fun _ => rfl) (fun _ => rfl)
      (fun _ => rfl) (fun _ => rfl)

theorem mirrors_storeText (s : QString) (w : World) (i : Nat) (h : autoSyncs w i) :
    Mirrors s w (w.storeText i s) where
  connections := rfl
  passwordsrepeat := rfl
  echoMode j := by simp only [World.storeText, fields_modify]; split_ifs <;> rfl
  enabled j := by simp only [World.storeText, fields_modify]; split_ifs <;> rfl
  repeatPartner j := by simp only [World.storeText, fields_modify]; split_ifs <;> rfl
  parentPartner j := by simp only [World.storeText, fields_modify]; split_ifs <;> rfl
  text j := by
    simp only [World.storeText, fields_modify]
    split_ifs with hj
    · right
      exact ⟨rfl, hj ▸ h⟩
    · left
      rfl

theorem text_storeText (w : World) (i j : Nat) (s : QString) :
    ((w.storeText i s).fields j).text = if j = i then s else (w.fields j).text := by
  simp only [World.storeText, fields_modify]
  split_ifs <;> rfl

theorem pending_subset_of_mirrors {s : QString} {w w' : World} (h : Mirrors s w w') :
    pending s w' ⊆ pending s w := by
  intro i hi
  simp only [pending, receivers, Finset.mem_filter, h.connections] at hi ⊢
  refine ⟨hi.1, fun hs => hi.2 (mirrors_text_stays h i hs)⟩

theorem pending_storeText_subset (s : QString) (w : World) (g : Nat) :
    pending s (w.storeText g s) ⊆ pending s w := by
  intro i hi
  simp only [pending, receivers, Finset.mem_filter, text_storeText] at hi ⊢
  refine ⟨hi.1, ?_⟩
  by_cases hig : i = g
  · simp [hig] at hi
  · simpa [hig] using hi.2

theorem pending_storeText_card_lt (s : QString) (w : World) (g : Nat)
    (hg : g ∈ receivers w) (ht : (w.fields g).text ≠ s) :
    (pending s (w.storeText g s)).card < (pending s w).card := by
  apply Finset.card_lt_card
  refine Finset.ssubset_iff_subset_ne.mpr ⟨pending_storeText_subset s w g, ?_⟩
  intro heq
  have h1 : g ∈ pending s w := by
    simp only [pending, Finset.mem_filter]
    exact ⟨hg, ht⟩
  rw [← heq] at h1
  simp [pending, text_storeText] at h1

theorem pending_card_le_length (s : QString) (w : World) :
    (pending s w).card ≤ w.connections.length := by
  calc (pending s w).card ≤ (receivers w).card := Finset.card_filter_le _ _
    _ ≤ (w.connections.map Connection.receiver).length := List.toFinset_card_le _
    _ = w.connections.length := List.length_map _ _

theorem receiver_mem_receivers (w : World) (c : Connection) (h : c ∈ w.connections) :
    c.receiver ∈ receivers w := by
  simp only [receivers, List.mem_toFinset, List.mem_map]
  exact ⟨c, h, rfl⟩

/-- The slots of a list of connections all run, given that the nested
`setText` calls with fuel `n` do. -/
theorem foldlM_invokeSlot (s : QString) (n : Nat)
    (H : ∀ (w : World) (g : Nat), autoSyncs w g → g ∈ receivers w → (pending s w).card ≤ n →
      ∃ w', setText n w g s = some w' ∧ Mirrors s w w' ∧ (w'.fields g).text = s) :
    ∀ (cs : List Connection) (w : World), (∀ c ∈ cs, c ∈ w.connections) →
      (pending s w).card ≤ n →
      ∃ w', cs.foldlM (invokeSlot (setText n) s) w = some w' ∧ Mirrors s w w' ∧
        ∀ c ∈ cs, c.slot = Slot.autocompletePassword → autoSyncs w c.receiver →
          (w'.fields c.receiver).text = s := by
  intro cs
  induction cs with
  | nil =>
    intro w _ _
    exact ⟨w, rfl, mirrors_refl s w, fun c hc => absurd hc (List.not_mem_nil c)⟩
  | cons c cs ih =>
    intro w hmem hcard
    have hstep : ∃ w1, invokeSlot (setText n) s w c = some w1 ∧ Mirrors s w w1 ∧
        (c.slot = Slot.autocompletePassword → autoSyncs w c.receiver →
          (w1.fields c.receiver).text = s) := by
      unfold invokeSlot
      cases hslot : c.slot with
      | updateRepeatStatus =>
        exact ⟨_, rfl, mirrors_updateRepeatStatus s w c.receiver, fun h => by cases h⟩
      | autocompletePassword =>
        by_cases ha : autoSyncs w c.receiver
        · obtain ⟨w1, h1, h2, h3⟩ :=
            H w c.receiver ha (receiver_mem_receivers w c (hmem c (List.mem_cons_self _ _))) hcard
          refine ⟨w1, ?_, h2, fun _ _ => h3⟩
          have ha' := ha
          unfold autoSyncs at ha'
          simp [autocompletePasswordWith, ha'.1, ha'.2, h1]
        · refine ⟨w, ?_, mirrors_refl s w, fun _ h => absurd h ha⟩
          unfold autoSyncs at ha
          simp only [autocompletePasswordWith]
          rw [if_neg]
          simpa using ha
    obtain ⟨w1, h1, hm1, ht1⟩ := hstep
    have hmem1 : ∀ c' ∈ cs, c' ∈ w1.connections := by
      intro c' hc'
      rw [hm1.connections]
      exact hmem c' (List.mem_cons_of_mem _ hc')
    have hcard1 : (pending s w1).card ≤ n :=
      le_trans (Finset.card_le_card (pending_subset_of_mirrors hm1)) hcard
    obtain ⟨w2, h2, hm2, ht2⟩ := ih w1 hmem1 hcard1
    refine ⟨w2, ?_, mirrors_trans hm1 hm2, ?_⟩
    · rw [List.foldlM_cons, h1]
      exact h2
    · intro c' hc' hslot ha
      rcases List.mem_cons.mp hc' with rfl | hc'
      · exact mirrors_text_stays hm2 _ (ht1 hslot ha)
      · exact ht2 c' hc' hslot ((autoSyncs_of_mirrors hm1 _).mpr ha)

/-- A nested `setText` call, made by `autocompletePassword` on a receiver,
returns when the fuel covers the receivers whose text is not yet `s`. -/
theorem setText_nested (s : QString) :
    ∀ (n : Nat) (w : World) (g : Nat), autoSyncs w g → g ∈ receivers w →
      (pending s w).card ≤ n →
      ∃ w', setText n w g s = some w' ∧ Mirrors s w w' ∧ (w'.fields g).text = s := by
  intro n
  induction n with
  | zero =>
    intro w g _ hg hcard
    have ht : (w.fields g).text = s := by
      by_contra hne
      have : g ∈ pending s w := by
        simp only [pending, Finset.mem_filter]
        exact ⟨hg, hne⟩
      have h0 : pending s w = ∅ := Finset.card_eq_zero.mp (Nat.le_zero.mp hcard)
      rw [h0] at this
      exact absurd this (Finset.not_mem_empty g)
    exact ⟨w, by simp [setText, ht], mirrors_refl s w, ht⟩
  | succ n ih =>
    intro w g ha hg hcard
    by_cases ht : (w.fields g).text = s
    · exact ⟨w, by simp [setText, ht], mirrors_refl s w, ht⟩
    · have hlt := pending_storeText_card_lt s w g hg ht
      have hm0 := mirrors_storeText s w g ha
      obtain ⟨w', h1, hm1, _⟩ := foldlM_invokeSlot s n ih
        ((w.storeText g s).connections.filter fun c => c.sender = g) (w.storeText g s)
        (fun c hc => (List.mem_filter.mp hc).1) (by omega)
      refine ⟨w', ?_, mirrors_trans hm0 hm1, mirrors_text_stays hm1 g (by simp [text_storeText])⟩
      simp only [setText, if_neg ht]
      exact h1

/-- `setText` returns for every fuel above the number of connections.  The
state it returns has the text `s` on the widget, differs from the state with
`s` stored only by the effects of the emission, and, when the text really
changed, every auto-syncing receiver of an `autocompletePassword` connection
of the widget has the text `s` too. -/
theorem setText_returns (fuel : Nat) (w : World) (self : Nat) (s : QString)
    (hf : w.connections.length < fuel) :
    ∃ w', setText fuel w self s = some w' ∧ Mirrors s (w.storeText self s) w' ∧
      (w'.fields self).text = s ∧
      ((w.fields self).text ≠ s → ∀ c ∈ w.connections, c.sender = self →
        c.slot = Slot.autocompletePassword → autoSyncs w c.receiver →
        (w'.fields c.receiver).text = s) := by
  obtain ⟨n, rfl⟩ : ∃ n, fuel = n + 1 := ⟨fuel - 1, by omega⟩
  by_cases ht : (w.fields self).text = s
  · refine ⟨w, by simp [setText, ht], ?_, ht, fun h => absurd ht h⟩
    have heq : w.storeText self s = w := by
      cases w with
      | mk fields connections passwordsrepeat =>
        simp only [World.storeText, World.modify, World.mk.injEq, and_true]
        funext i
        by_cases hi : i = self
        · subst hi
          simp only [if_true]
          simp only at ht
          rw [← ht]
        · simp [hi]
    rw [heq]
    exact mirrors_refl s w
  · have hcard : (pending s (w.storeText self s)).card ≤ n := by
      have := pending_card_le_length s (w.storeText self s)
      have hc : (w.storeText self s).connections = w.connections := rfl
      rw [hc] at this
      omega
    obtain ⟨w', h1, hm1, hrec⟩ := foldlM_invokeSlot s n (setText_nested s n)
      ((w.storeText self s).connections.filter fun c => c.sender = self) (w.storeText self s)
      (fun c hc => (List.mem_filter.mp hc).1) hcard
    refine ⟨w', ?_, hm1, mirrors_text_stays hm1 self (by simp [text_storeText]), ?_⟩
    · simp only [setText, if_neg ht]
      exact h1
    · intro _ c hc hsender hslot ha
      apply hrec c _ hslot
      · unfold autoSyncs at ha ⊢
        refine ⟨ha.1, ?_⟩
        simp only [World.storeText, fields_modify]
        split_ifs <;> exact ha.2
      · apply List.mem_filter.mpr
        exact ⟨hc, by simpa using hsender⟩

end PasswordEdit

/-! ## Visibility and auto-sync (`setShowPassword`, `autocompletePassword`) -/

namespace PasswordEdit

/-- The state after the unconditional part of `setShowPassword` on a field whose
repeat partner is `r`, before the auto-sync branch. -/
theorem setShowPassword_eq (fuel : Nat) (w : World) (self r : Nat) (shown : Bool)
    (hr : (w.fields self).m_repeatPasswordEdit = some r) :
    setShowPassword fuel w self shown =
      if w.passwordsrepeat = true then
        setText fuel
          (setEnabled (setEchoMode (toggleVisibleActionSetChecked (toggleVisibleActionSetIcon
            (setEchoMode w self (if shown then EchoMode.Normal else EchoMode.Password)) self
            (if shown then "password-show-on" else "password-show-off")) self shown) r
            (if shown then EchoMode.Normal else EchoMode.Password)) r (!shown)) r
          (w.fields self).text
      else
        some (setEnabled (setEchoMode (toggleVisibleActionSetChecked (toggleVisibleActionSetIcon
            (setEchoMode w self (if shown then EchoMode.Normal else EchoMode.Password)) self
            (if shown then "password-show-on" else "password-show-off")) self shown) r
            (if shown then EchoMode.Normal else EchoMode.Password)) r true) := by
  have hr1 : ((toggleVisibleActionSetChecked (toggleVisibleActionSetIcon
      (setEchoMode w self (if shown then EchoMode.Normal else EchoMode.Password)) self
      (if shown then "password-show-on" else "password-show-off")) self shown).fields
        self).m_repeatPasswordEdit = some r := by
    simp [toggleVisibleActionSetChecked, toggleVisibleActionSetIcon, setEchoMode,
      fields_modify, hr]
  have ht : ((setEnabled (setEchoMode (toggleVisibleActionSetChecked (toggleVisibleActionSetIcon
      (setEchoMode w self (if shown then EchoMode.Normal else EchoMode.Password)) self
      (if shown then "password-show-on" else "password-show-off")) self shown) r
      (if shown then EchoMode.Normal else EchoMode.Password)) r (!shown)).fields self).text =
        (w.fields self).text := by
    simp only [toggleVisibleActionSetChecked, toggleVisibleActionSetIcon, setEchoMode,
      setEnabled, fields_modify]
    split_ifs <;> rfl
  unfold setShowPassword
  simp only [hr1, ht]
  rfl

/-- What `setShowPassword` does on a field with a linked repeat field. -/
theorem setShowPassword_linked (fuel : Nat) (w : World) (self r : Nat) (shown : Bool)
    (hf : w.connections.length < fuel)
    (hr : (w.fields self).m_repeatPasswordEdit = some r) :
    ∃ w', setShowPassword fuel w self shown = some w' ∧
      (w'.fields self).echoMode = (if shown then EchoMode.Normal else EchoMode.Password) ∧
      (w'.fields r).echoMode = (if shown then EchoMode.Normal else EchoMode.Password) ∧
      (w'.fields self).text = (w.fields self).text ∧
      (w.passwordsrepeat = true →
        (w'.fields r).enabled = (!shown) ∧ (w'.fields r).text = (w.fields self).text) ∧
      (w.passwordsrepeat = false →
        (w'.fields r).enabled = true ∧ (w'.fields r).text = (w.fields r).text) := by
  rw [setShowPassword_eq fuel w self r shown hr]
  cases hauto : w.passwordsrepeat with
  | false =>
    refine ⟨_, if_neg (by simp), ?_, ?_, ?_, fun h => Bool.noConfusion h, fun _ => ⟨?_, ?_⟩⟩
    all_goals
      simp only [toggleVisibleActionSetChecked, toggleVisibleActionSetIcon, setEchoMode,
        setEnabled, fields_modify]
      split_ifs <;> simp
  | true =>
    generalize hw5 : (setEnabled (setEchoMode (toggleVisibleActionSetChecked
      (toggleVisibleActionSetIcon
      (setEchoMode w self (if shown then EchoMode.Normal else EchoMode.Password)) self
      (if shown then "password-show-on" else "password-show-off")) self shown) r
      (if shown then EchoMode.Normal else EchoMode.Password)) r (!shown)) = w5
    have hconn : w5.connections = w.connections := by rw [← hw5]; rfl
    have htext : ∀ i, (w5.fields i).text = (w.fields i).text := by
      intro i
      rw [← hw5]
      simp only [toggleVisibleActionSetChecked, toggleVisibleActionSetIcon, setEchoMode,
        setEnabled, fields_modify]
      split_ifs <;> rfl
    have hecho1 : (w5.fields self).echoMode =
        (if shown then EchoMode.Normal else EchoMode.Password) := by
      rw [← hw5]
      simp only [toggleVisibleActionSetChecked, toggleVisibleActionSetIcon, setEchoMode,
        setEnabled, fields_modify]
      split_ifs <;> simp
    have hecho2 : (w5.fields r).echoMode =
        (if shown then EchoMode.Normal else EchoMode.Password) := by
      rw [← hw5]
      simp [toggleVisibleActionSetChecked, toggleVisibleActionSetIcon, setEchoMode,
        setEnabled, fields_modify]
    have hen : (w5.fields r).enabled = (!shown) := by
      rw [← hw5]
      simp [toggleVisibleActionSetChecked, toggleVisibleActionSetIcon, setEchoMode,
        setEnabled, fields_modify]
    obtain ⟨w', h1, hm, ht, _⟩ :=
      setText_returns fuel w5 r (w.fields self).text (by rw [hconn]; exact hf)
    have hstore : ∀ i, ((w5.storeText r (w.fields self).text).fields i).echoMode =
        (w5.fields i).echoMode := by
      intro i
      simp only [World.storeText, fields_modify]
      split_ifs <;> rfl
    have hstore2 : ((w5.storeText r (w.fields self).text).fields r).enabled =
        (w5.fields r).enabled := by
      simp [World.storeText, fields_modify]
    refine ⟨w', by simpa using h1, ?_, ?_, ?_, fun _ => ⟨?_, ?_⟩, fun h => Bool.noConfusion h⟩
    · rw [hm.echoMode, hstore, hecho1]
    · rw [hm.echoMode, hstore, hecho2]
    · apply mirrors_text_stays hm
      rw [text_storeText, htext]
      split_ifs <;> rfl
    · rw [hm.enabled, hstore2, hen]
    · exact ht

end PasswordEdit

namespace PasswordEdit

/-- The guard of `autocompletePassword` as a proposition. -/
theorem autoSyncs_iff_guard (w : World) (i : Nat) :
    (w.passwordsrepeat && (w.fields i).echoMode == EchoMode.Normal) = true ↔ autoSyncs w i := by
  unfold autoSyncs
  simp

/-- The call `setRepeatPartner` connects `textChanged` of the primary to
`autocompletePassword` of the repeat field. -/
theorem setRepeatPartner_connects (w : World) (self repeatEdit : Nat) :
    (⟨self, repeatEdit, Slot.autocompletePassword⟩ : Connection) ∈
      (setRepeatPartner w self repeatEdit).connections := by
  simp [setRepeatPartner]

/-- C6: on a primary with a linked repeat field `setShowPassword` returns, and
afterwards both fields are visible exactly when `shown` holds; with auto-sync
configured the repeat field is enabled exactly when `shown` is false, and when
`shown` is true its text equals the text of the primary. -/
theorem setShowPassword_visibility (fuel : Nat) (w : World) (self r : Nat) (shown : Bool)
    (hf : w.connections.length < fuel)
    (hr : (w.fields self).m_repeatPasswordEdit = some r) :
    ∃ w', setShowPassword fuel w self shown = some w' ∧
      isPasswordVisible w' self = shown ∧
      isPasswordVisible w' r = shown ∧
      (w.passwordsrepeat = true →
        ((w'.fields r).enabled = true ↔ shown = false) ∧
        (shown = true → (w'.fields r).text = (w'.fields self).text)) := by
  obtain ⟨w', h1, h2, h3, h4, h5, _⟩ := setShowPassword_linked fuel w self r shown hf hr
  refine ⟨w', h1, ?_, ?_, fun hauto => ⟨?_, fun _ => ?_⟩⟩
  · unfold isPasswordVisible
    rw [h2]
    cases shown <;> rfl
  · unfold isPasswordVisible
    rw [h3]
    cases shown <;> rfl
  · rw [(h5 hauto).1]
    cases shown <;> simp
  · rw [(h5 hauto).2, h4]

/-- Witness for C6: primary "Sunshine1" linked to a repeat field holding
"Moon", auto-sync configured, the password being shown. -/
theorem setShowPassword_visibility_witness :
    ∃ w', setShowPassword 4 (pairWorld true "Sunshine1".toList "Moon".toList) 0 true = some w' ∧
      isPasswordVisible w' 0 = true ∧
      isPasswordVisible w' 1 = true ∧
      ((pairWorld true "Sunshine1".toList "Moon".toList).passwordsrepeat = true →
        ((w'.fields 1).enabled = true ↔ true = false) ∧
        (true = true → (w'.fields 1).text = (w'.fields 0).text)) :=
  setShowPassword_visibility 4 (pairWorld true "Sunshine1".toList "Moon".toList) 0 1 true
    (by decide) (by decide)

/-- C7 (as amended): with enough fuel `autocompletePassword(s)` returns; the
text of the field becomes `s` when auto-sync is configured and the field shows
its text in the clear, and in every other case the call changes nothing.  When
`setText` changes the text of a primary, distinct from the repeat field and
holding a text other than `s`, to `s`, the connection made by
`setRepeatPartner` runs `autocompletePassword(s)` and the same holds for the
repeat field.  When the primary already holds `s`, `setText(s)` emits nothing
and the whole state, the text of the repeat field included, is unchanged. -/
theorem autocompletePassword_frame (fuel : Nat) (w : World) (self : Nat) (s : QString)
    (hf : w.connections.length < fuel) :
    (∃ w', autocompletePassword fuel w self s = some w' ∧
      (w'.fields self).text =
        if w.passwordsrepeat = true ∧ (w.fields self).echoMode = EchoMode.Normal then s
        else (w.fields self).text) ∧
    (¬ (w.passwordsrepeat = true ∧ (w.fields self).echoMode = EchoMode.Normal) →
      autocompletePassword fuel w self s = some w) ∧
    (∀ primary : Nat,
      (⟨primary, self, Slot.autocompletePassword⟩ : Connection) ∈ w.connections →
      primary ≠ self → (w.fields primary).text ≠ s →
      ∃ w', setText fuel w primary s = some w' ∧
        (w'.fields primary).text = s ∧
        (w'.fields self).text =
          if w.passwordsrepeat = true ∧ (w.fields self).echoMode = EchoMode.Normal then s
          else (w.fields self).text) ∧
    (∀ primary : Nat, (w.fields primary).text = s → setText fuel w primary s = some w) := by
  refine ⟨?_, ?_, ?_, ?_⟩
  · by_cases ha : w.passwordsrepeat = true ∧ (w.fields self).echoMode = EchoMode.Normal
    · obtain ⟨w', h1, _, h3, _⟩ := setText_returns fuel w self s hf
      refine ⟨w', ?_, by rw [if_pos ha]; exact h3⟩
      unfold autocompletePassword autocompletePasswordWith
      rw [if_pos ((autoSyncs_iff_guard w self).mpr ha)]
      exact h1
    · refine ⟨w, ?_, by rw [if_neg ha]⟩
      unfold autocompletePassword autocompletePasswordWith
      rw [if_neg (fun h => ha ((autoSyncs_iff_guard w self).mp h))]
  · intro ha
    unfold autocompletePassword autocompletePasswordWith
    rw [if_neg (fun h => ha ((autoSyncs_iff_guard w self).mp h))]
  · intro primary hc hne ht
    obtain ⟨w', h1, hm, h3, h4⟩ := setText_returns fuel w primary s hf
    refine ⟨w', h1, h3, ?_⟩
    by_cases ha : w.passwordsrepeat = true ∧ (w.fields self).echoMode = EchoMode.Normal
    · rw [if_pos ha]
      exact h4 ht _ hc rfl rfl ha
    · rw [if_neg ha]
      have hkeep := mirrors_text_kept hm self (by
        intro h
        apply ha
        unfold autoSyncs at h
        refine ⟨h.1, ?_⟩
        have := h.2
        simp only [World.storeText, fields_modify] at this
        split_ifs at this <;> exact this)
      rw [hkeep, text_storeText, if_neg (Ne.symm hne)]
  · intro primary ht
    cases fuel <;> simp [setText, ht]

/-- C7 (as stated) fails.  First state: primary 0 holds "Sunshine1", its repeat
field 1 holds "Moon" and shows its text, auto-sync is configured; setting the
text of the primary to "Sunshine1" again emits nothing and the repeat field
keeps "Moon".  Second state: field 0 is linked to itself, auto-sync is off and
the text is hidden; setting its text to "x" overwrites the text of the repeat
field, which is the same field. -/
theorem setText_sync_not_iff_guard :
    ((⟨0, 1, Slot.autocompletePassword⟩ : Connection) ∈
        (setEchoMode (pairWorld true "Sunshine1".toList "Moon".toList) 1
          EchoMode.Normal).connections ∧
      (setEchoMode (pairWorld true "Sunshine1".toList "Moon".toList) 1
          EchoMode.Normal).passwordsrepeat = true ∧
      ((setEchoMode (pairWorld true "Sunshine1".toList "Moon".toList) 1
          EchoMode.Normal).fields 1).echoMode = EchoMode.Normal ∧
      (setText 4 (setEchoMode (pairWorld true "Sunshine1".toList "Moon".toList) 1
          EchoMode.Normal) 0 "Sunshine1".toList).map (fun w => (w.fields 1).text) =
        some "Moon".toList) ∧
    (((setRepeatPartner (World.fresh false) 0 0).fields 0).m_repeatPasswordEdit = some 0 ∧
      (setRepeatPartner (World.fresh false) 0 0).passwordsrepeat = false ∧
      ((setRepeatPartner (World.fresh false) 0 0).fields 0).echoMode = EchoMode.Password ∧
      ((setRepeatPartner (World.fresh false) 0 0).fields 0).text = [] ∧
      (setText 4 (setRepeatPartner (World.fresh false) 0 0) 0 "x".toList).map
          (fun w => (w.fields 0).text) = some "x".toList) := by
  decide

/-- Witness for C7 (as amended): primary "Sunshine1" linked to a repeat field that holds
"Moon" and shows its text, auto-sync configured; first `autocompletePassword`
is called on the repeat field with "Sunshine12", then the text of the primary
is set to "Sunshine12". -/
theorem autocompletePassword_frame_witness :
    (∃ w', autocompletePassword 4
        (setEchoMode (pairWorld true "Sunshine1".toList "Moon".toList) 1 EchoMode.Normal) 1
        "Sunshine12".toList = some w' ∧
      (w'.fields 1).text =
        if (setEchoMode (pairWorld true "Sunshine1".toList "Moon".toList) 1
              EchoMode.Normal).passwordsrepeat = true ∧
            ((setEchoMode (pairWorld true "Sunshine1".toList "Moon".toList) 1
              EchoMode.Normal).fields 1).echoMode = EchoMode.Normal then "Sunshine12".toList
        else ((setEchoMode (pairWorld true "Sunshine1".toList "Moon".toList) 1
              EchoMode.Normal).fields 1).text) ∧
    (∃ w', setText 4
        (setEchoMode (pairWorld true "Sunshine1".toList "Moon".toList) 1 EchoMode.Normal) 0
        "Sunshine12".toList = some w' ∧
      (w'.fields 0).text = "Sunshine12".toList ∧
      (w'.fields 1).text =
        if (setEchoMode (pairWorld true "Sunshine1".toList "Moon".toList) 1
              EchoMode.Normal).passwordsrepeat = true ∧
            ((setEchoMode (pairWorld true "Sunshine1".toList "Moon".toList) 1
              EchoMode.Normal).fields 1).echoMode = EchoMode.Normal then "Sunshine12".toList
        else ((setEchoMode (pairWorld true "Sunshine1".toList "Moon".toList) 1
              EchoMode.Normal).fields 1).text) :=
  ⟨(autocompletePassword_frame 4
      (setEchoMode (pairWorld true "Sunshine1".toList "Moon".toList) 1 EchoMode.Normal) 1
      "Sunshine12".toList (by decide)).1,
   (autocompletePassword_frame 4
      (setEchoMode (pairWorld true "Sunshine1".toList "Moon".toList) 1 EchoMode.Normal) 1
      "Sunshine12".toList (by decide)).2.2.1 0 (by decide) (by decide) (by decide)⟩

/-- C9: with auto-sync configured, `setShowPassword` on a primary with a linked
repeat field returns and overwrites the text of the repeat field with the text
of the primary for either value of `shown`, also when the password becomes
hidden; the text of the primary is unchanged. -/
theorem setShowPassword_overwrites_repeat (fuel : Nat) (w : World) (self r : Nat)
    (shown : Bool) (hf : w.connections.length < fuel)
    (hr : (w.fields self).m_repeatPasswordEdit = some r)
    (hauto : w.passwordsrepeat = true) :
    ∃ w', setShowPassword fuel w self shown = some w' ∧
      (w'.fields r).text = (w.fields self).text ∧
      (w'.fields self).text = (w.fields self).text := by
  obtain ⟨w', h1, _, _, h4, h5, _⟩ := setShowPassword_linked fuel w self r shown hf hr
  exact ⟨w', h1, (h5 hauto).2, h4⟩

/-- Witness for C9: primary "Sunshine1" linked to a repeat field holding
"Moon", auto-sync configured, the password being hidden: the repeat field ends
with "Sunshine1". -/
theorem setShowPassword_overwrites_repeat_witness :
    ((pairWorld true "Sunshine1".toList "Moon".toList).fields 1).text = "Moon".toList ∧
    ∃ w', setShowPassword 4 (pairWorld true "Sunshine1".toList "Moon".toList) 0 false = some w' ∧
      (w'.fields 1).text = ((pairWorld true "Sunshine1".toList "Moon".toList).fields 0).text ∧
      (w'.fields 0).text = ((pairWorld true "Sunshine1".toList "Moon".toList).fields 0).text :=
  ⟨by decide,
   setShowPassword_overwrites_repeat 4 (pairWorld true "Sunshine1".toList "Moon".toList) 0 1
    false (by decide) (by decide) (by decide)⟩

end PasswordEdit
